import Mathlib

/-!
Verification development for the podman-swarm agent.

Shallow embedding of the core subsystems (DNS resolver and whitelist,
service-discovery registry, persistent store with anti-entropy merge,
join-token validation, workload apply/delete paths) translated from the
Go sources, together with theorems settling the specification claims.

Go strings are modelled as `List Char` (named `GoStr`) so that the
standard-library string operations used by the source
(`strings.ToLower`, `strings.TrimSuffix`, `strings.Split`,
`strings.Join`, ...) can be given exact executable counterparts.
Go maps are modelled as association lists whose entry order stands for
the (unspecified) iteration order of the map; key sets of real Go maps
are duplicate-free, which surfaces as `Nodup` hypotheses where needed.
Wall-clock instants (`time.Time`) are modelled as natural numbers; the
current instant (`time.Now()`) is passed explicitly as a `now`
parameter.
-/

set_option autoImplicit false

deriving instance DecidableEq for Except

namespace PodmanSwarm

/-- Go string, modelled as its character list. -/
abbrev GoStr := List Char

/-- `strings.ToLower` (ASCII range, which is all the source feeds it). -/
def lowerStr (s : GoStr) : GoStr := s.map Char.toLower

/-- `strings.TrimSuffix s suf`: removes `suf` once if `s` ends with it. -/
def trimSuffix (s suf : GoStr) : GoStr :=
  if suf.isSuffixOf s then s.take (s.length - suf.length) else s

/-- `strings.HasSuffix`. -/
def hasSuffix (s suf : GoStr) : Bool := suf.isSuffixOf s

/-- `strings.Split s "."`: split at every dot; `Split "" "."` is `[""]`. -/
def splitDot : GoStr → List GoStr
  | [] => [[]]
  | c :: cs =>
    let r := splitDot cs
    if c = '.' then [] :: r
    else (c :: r.headD []) :: r.tail

/-- `strings.Join parts "."`. -/
def joinDot : List GoStr → GoStr
  | [] => []
  | [p] => p
  | p :: ps => p ++ '.' :: joinDot ps

theorem splitDot_ne_nil (s : GoStr) : splitDot s ≠ [] := by
  cases s with
  | nil => simp [splitDot]
  | cons c cs =>
    simp only [splitDot]
    split
    · simp
    · simp

theorem joinDot_cons (p : GoStr) (ps : List GoStr) (hps : ps ≠ []) :
    joinDot (p :: ps) = p ++ '.' :: joinDot ps := by
  cases ps with
  | nil => exact absurd rfl hps
  | cons q qs => rfl

/-- Splitting on dots and joining with dots round-trips. -/
theorem joinDot_splitDot (s : GoStr) : joinDot (splitDot s) = s := by
  induction s with
  | nil => rfl
  | cons c cs ih =>
    by_cases hc : c = '.'
    · subst hc
      have h1 : splitDot ('.' :: cs) = [] :: splitDot cs := by simp [splitDot]
      rw [h1, joinDot_cons _ _ (splitDot_ne_nil cs), List.nil_append, ih]
    · have h1 : splitDot (c :: cs) =
          (c :: (splitDot cs).headD []) :: (splitDot cs).tail := by
        simp [splitDot, hc]
      rw [h1]
      rcases hr : splitDot cs with _ | ⟨h, t⟩
      · exact absurd hr (splitDot_ne_nil cs)
      · cases t with
        | nil =>
          have h2 : joinDot [h] = h := rfl
          rw [hr, h2] at ih
          simp only [List.headD, List.tail_cons]
          show c :: h = c :: cs
          rw [ih]
        | cons u us =>
          have h2 : joinDot (h :: u :: us) = h ++ '.' :: joinDot (u :: us) :=
            joinDot_cons _ _ (by simp)
          rw [hr, h2] at ih
          simp only [List.headD, List.tail_cons]
          rw [joinDot_cons _ _ (by simp), List.cons_append, ih]

/-! ### Association-list model of Go maps -/

section AssocMap

variable {κ : Type} {α : Type} [DecidableEq κ]

/-- Go map lookup `m[k]` (first matching entry). -/
def lookupKV (m : List (κ × α)) (k : κ) : Option α :=
  match m with
  | [] => none
  | (k', v) :: rest => if k' = k then some v else lookupKV rest k

/-- Go map assignment `m[k] = v`: replace in place, or append. -/
def upsert (k : κ) (v : α) : List (κ × α) → List (κ × α)
  | [] => [(k, v)]
  | (k', v') :: rest =>
    if k' = k then (k, v) :: rest else (k', v') :: upsert k v rest

/-- Go `delete(m, k)`. -/
def eraseKV (m : List (κ × α)) (k : κ) : List (κ × α) :=
  m.filter (fun p => p.1 ≠ k)

/-- The key list of a map. -/
def keysOf (m : List (κ × α)) : List κ := m.map Prod.fst

theorem lookupKV_upsert (m : List (κ × α)) (k k' : κ) (v : α) :
    lookupKV (upsert k v m) k' = if k = k' then some v else lookupKV m k' := by
  induction m with
  | nil =>
    by_cases h : k = k' <;> simp [upsert, lookupKV, h]
  | cons p rest ih =>
    obtain ⟨a, b⟩ := p
    simp only [upsert]
    by_cases hak : a = k
    · rw [if_pos hak]
      subst hak
      by_cases h : a = k' <;> simp [lookupKV, h]
    · rw [if_neg hak]
      by_cases h1 : a = k'
      · subst h1
        have h2 : ¬ k = a := fun h => hak h.symm
        simp [lookupKV, h2]
      · simp [lookupKV, h1, ih]

theorem lookupKV_isSome_upsert (m : List (κ × α)) (k k' : κ) (v : α)
    (h : (lookupKV m k').isSome) : (lookupKV (upsert k v m) k').isSome := by
  rw [lookupKV_upsert]
  split
  · simp
  · exact h

theorem lookupKV_eq_none_of_not_mem (m : List (κ × α)) (k : κ)
    (h : k ∉ keysOf m) : lookupKV m k = none := by
  induction m with
  | nil => rfl
  | cons p rest ih =>
    obtain ⟨a, b⟩ := p
    simp only [keysOf, List.map_cons, List.mem_cons, not_or] at h
    simp only [lookupKV]
    rw [if_neg (fun hh => h.1 hh.symm)]
    exact ih (by simpa [keysOf] using h.2)

end AssocMap

/-! ### DNS whitelist (internal/dns `DNSWhitelist`, `SetWhitelist`, `isHostAllowed`) -/

/-- Normalization used by both `SetWhitelist` and `isHostAllowed`:
`strings.ToLower(strings.TrimSuffix(s, "."))`. -/
def normalizeDot (s : GoStr) : GoStr := lowerStr (trimSuffix s ['.'])

/-- `DNSWhitelist`: the `Enabled` flag and the key list of the
`Hosts map[string]bool` (all stored values are `true`, so only the key
set matters; list order models map iteration order). -/
structure DNSWhitelist where
  enabled : Bool
  hosts : List GoStr
  deriving Repr, DecidableEq

/-- `Hosts[d]` on the whitelist's host map. -/
def memHosts (w : DNSWhitelist) (d : GoStr) : Bool := decide (d ∈ w.hosts)

/-- `Server.SetWhitelist`: normalizes every host and stores it both
without and with a trailing dot. -/
def setWhitelist (enabled : Bool) (hosts : List GoStr) : DNSWhitelist :=
  { enabled := enabled
    hosts := hosts.foldl
      (fun acc host =>
        let normalized := normalizeDot host
        acc ++ [normalized, normalized ++ ['.']]) [] }

/-- `Server.isHostAllowed`: allow everything when disabled; otherwise
check the normalized name (and its dotted form) exactly, then every
suffix obtained by dropping leading labels at dot boundaries. -/
def isHostAllowed (w : DNSWhitelist) (queryName : GoStr) : Bool :=
  if !w.enabled then true
  else
    let normalized := normalizeDot queryName
    if memHosts w normalized || memHosts w (normalized ++ ['.']) then true
    else
      let parts := splitDot normalized
      (List.range parts.length).any fun i =>
        let domain := joinDot (parts.drop i)
        memHosts w domain || memHosts w (domain ++ ['.'])

/-- The allow rule exactly as the claim words it, over the user-supplied
host list (whose normalized elements are the stored entries): the
normalized query name equals a stored entry, or dropping one or more
leading labels at a dot boundary yields a stored entry. -/
def specHostAllowed (hosts : List GoStr) (queryName : GoStr) : Bool :=
  let n := normalizeDot queryName
  let entries := hosts.map normalizeDot
  let parts := splitDot n
  decide (n ∈ entries) ||
    (List.range parts.length).any fun i =>
      decide (1 ≤ i) && decide (joinDot (parts.drop i) ∈ entries)

/-- The allow rule the code actually implements (for enabled
whitelists built by `SetWhitelist`): some suffix of the normalized name
at a dot boundary — including the whole name — equals a normalized
entry, equals a normalized entry with a trailing dot appended, or is
itself a normalized entry followed by a trailing dot. -/
def amendedHostAllowed (hosts : List GoStr) (queryName : GoStr) : Bool :=
  let n := normalizeDot queryName
  let parts := splitDot n
  (List.range parts.length).any fun i =>
    let d := joinDot (parts.drop i)
    hosts.any fun h =>
      d = normalizeDot h || d = normalizeDot h ++ ['.'] || d ++ ['.'] = normalizeDot h

theorem setWhitelist_hosts_eq (e : Bool) (hosts : List GoStr) :
    (setWhitelist e hosts).hosts
      = hosts.flatMap (fun h => [normalizeDot h, normalizeDot h ++ ['.']]) := by
  show hosts.foldl _ [] = _
  have key : ∀ (hs : List GoStr) (acc : List GoStr),
      hs.foldl (fun acc host =>
        acc ++ [normalizeDot host, normalizeDot host ++ ['.']]) acc
      = acc ++ hs.flatMap (fun h => [normalizeDot h, normalizeDot h ++ ['.']]) := by
    intro hs
    induction hs with
    | nil => intro acc; simp
    | cons x xs ih => intro acc; simp [ih, List.flatMap_cons, List.append_assoc]
  simpa using key hosts []

theorem mem_setWhitelist_hosts (e : Bool) (hosts : List GoStr) (d : GoStr) :
    d ∈ (setWhitelist e hosts).hosts ↔
      ∃ h ∈ hosts, d = normalizeDot h ∨ d = normalizeDot h ++ ['.'] := by
  rw [setWhitelist_hosts_eq]
  simp [List.mem_flatMap]

theorem dotted_eq_dotted_iff (a b : GoStr) :
    a ++ ['.'] = b ++ ['.'] ↔ a = b := by
  constructor
  · intro h
    have := congrArg List.dropLast h
    simpa using this
  · intro h; rw [h]

/-- The code's per-suffix test, rephrased over the raw host list. -/
theorem memHosts_pair_iff (e : Bool) (hosts : List GoStr) (d : GoStr) :
    (memHosts (setWhitelist e hosts) d
      || memHosts (setWhitelist e hosts) (d ++ ['.'])) = true ↔
    ∃ h ∈ hosts,
      d = normalizeDot h ∨ d = normalizeDot h ++ ['.']
        ∨ d ++ ['.'] = normalizeDot h := by
  simp only [memHosts, Bool.or_eq_true, decide_eq_true_eq,
    mem_setWhitelist_hosts]
  constructor
  · rintro (⟨h, hh, hd | hd⟩ | ⟨h, hh, hd | hd⟩)
    · exact ⟨h, hh, Or.inl hd⟩
    · exact ⟨h, hh, Or.inr (Or.inl hd)⟩
    · exact ⟨h, hh, Or.inr (Or.inr hd)⟩
    · exact ⟨h, hh, Or.inl ((dotted_eq_dotted_iff _ _).mp hd)⟩
  · rintro ⟨h, hh, hd | hd | hd⟩
    · exact Or.inl ⟨h, hh, Or.inl hd⟩
    · exact Or.inl ⟨h, hh, Or.inr hd⟩
    · exact Or.inr ⟨h, hh, Or.inl hd⟩

theorem isHostAllowed_enabled_iff (w : DNSWhitelist) (q : GoStr)
    (hw : w.enabled = true) :
    isHostAllowed w q = true ↔
      ((memHosts w (normalizeDot q)
          || memHosts w (normalizeDot q ++ ['.'])) = true
        ∨ ∃ i < (splitDot (normalizeDot q)).length,
            (memHosts w (joinDot ((splitDot (normalizeDot q)).drop i))
              || memHosts w
                  (joinDot ((splitDot (normalizeDot q)).drop i) ++ ['.']))
              = true) := by
  simp only [isHostAllowed, hw, Bool.not_true]
  by_cases hm : (memHosts w (normalizeDot q)
      || memHosts w (normalizeDot q ++ ['.'])) = true
  · simp [hm]
  · simp only [Bool.not_eq_true] at hm
    simp [hm, List.any_eq_true, List.mem_range]

theorem amendedHostAllowed_iff (hosts : List GoStr) (q : GoStr) :
    amendedHostAllowed hosts q = true ↔
      ∃ i < (splitDot (normalizeDot q)).length,
        ∃ h ∈ hosts,
          joinDot ((splitDot (normalizeDot q)).drop i) = normalizeDot h
          ∨ joinDot ((splitDot (normalizeDot q)).drop i)
              = normalizeDot h ++ ['.']
          ∨ joinDot ((splitDot (normalizeDot q)).drop i) ++ ['.']
              = normalizeDot h := by
  simp [amendedHostAllowed, List.any_eq_true, List.mem_range, or_assoc]

theorem isHostAllowed_setWhitelist_true (hosts : List GoStr) (q : GoStr) :
    isHostAllowed (setWhitelist true hosts) q = amendedHostAllowed hosts q := by
  rw [Bool.eq_iff_iff]
  rw [isHostAllowed_enabled_iff _ _ rfl, amendedHostAllowed_iff]
  have hlen : 0 < (splitDot (normalizeDot q)).length :=
    List.length_pos.mpr (splitDot_ne_nil _)
  have hd0 : joinDot ((splitDot (normalizeDot q)).drop 0) = normalizeDot q := by
    rw [List.drop_zero, joinDot_splitDot]
  constructor
  · rintro (hp | ⟨i, hi, hp⟩)
    · refine ⟨0, hlen, ?_⟩
      rw [hd0]
      exact (memHosts_pair_iff true hosts _).mp hp
    · exact ⟨i, hi, (memHosts_pair_iff true hosts _).mp hp⟩
  · rintro ⟨i, hi, hh⟩
    exact Or.inr ⟨i, hi, (memHosts_pair_iff true hosts _).mpr hh⟩

/-- Claim C6 is refuted on this input: with the whitelist enabled and
built from the single host `example.com`, the query name `example.com..`
(two trailing dots, of which the code strips only one) is allowed by
`isHostAllowed`, while the claim's allow rule — exact match after
normalization, or dropping leading labels — rejects it. -/
theorem claim_C6_counterexample :
    isHostAllowed (setWhitelist true [String.toList "example.com"])
        (String.toList "example.com..") = true
      ∧ specHostAllowed [String.toList "example.com"]
          (String.toList "example.com..") = false := by
  constructor
  · decide
  · decide

/-- Claim C6 (amended): for every whitelist built by `SetWhitelist` and
every query name, the name is allowed iff some suffix of the normalized
name at a dot boundary (including the whole name) equals a normalized
stored host, equals a normalized stored host with a trailing dot
appended, or is itself a normalized stored host followed by a trailing
dot; an enabled whitelist with an empty host set blocks every name, and
a disabled whitelist allows every name. -/
theorem claim_C6_amended (hosts : List GoStr) (q : GoStr) :
    isHostAllowed (setWhitelist true hosts) q = amendedHostAllowed hosts q
      ∧ isHostAllowed (setWhitelist true []) q = false
      ∧ isHostAllowed (setWhitelist false hosts) q = true := by
  refine ⟨isHostAllowed_setWhitelist_true hosts q, ?_, ?_⟩
  · rw [isHostAllowed_setWhitelist_true [] q]
    simp [amendedHostAllowed]
  · simp [isHostAllowed, setWhitelist]

/-! ### Service-discovery registry (internal/discovery) -/

/-- `discovery.ServiceEndpoint`. -/
structure ServiceEndpoint where
  serviceName : GoStr
  namespaceName : GoStr
  podID : GoStr
  podName : GoStr
  nodeName : GoStr
  address : GoStr
  port : Int
  healthy : Bool
  lastSeen : Nat
  deriving Repr, DecidableEq

/-- The registry's `services map[string]map[string]*ServiceEndpoint`
(serviceKey to endpointID to endpoint), as nested association lists. -/
abbrev Registry := List (GoStr × List (GoStr × ServiceEndpoint))

/-- `serviceKey`: `fmt.Sprintf("%s.%s", serviceName, namespace)`. -/
def serviceKey (serviceName namespaceName : GoStr) : GoStr :=
  serviceName ++ '.' :: namespaceName

/-- `endpointID`: `fmt.Sprintf("%s-%s-%s", namespace, serviceName, podID)`. -/
def endpointID (namespaceName serviceName podID : GoStr) : GoStr :=
  namespaceName ++ '-' :: serviceName ++ '-' :: podID

/-- `Discovery.GetServiceEndpoints`: error when the service key is
absent; otherwise the endpoints that are healthy and seen within the
last 30 seconds. -/
def getServiceEndpoints (reg : Registry) (now : Nat)
    (serviceName namespaceName : GoStr) :
    Except GoStr (List ServiceEndpoint) :=
  match lookupKV reg (serviceKey serviceName namespaceName) with
  | none => .error (String.toList "service not found")
  | some endpoints =>
    .ok ((endpoints.map Prod.snd).filter
      (fun e => e.healthy && decide (now - e.lastSeen < 30)))

/-! ### DNS cluster-name parsing and A/SRV resolution (internal/dns) -/

/-- `strings.TrimPrefix`. -/
def trimPre (s pre : GoStr) : GoStr :=
  if pre.isPrefixOf s then s.drop pre.length else s

/-- `Server.parseServiceName`: strip a trailing dot, then the suffix
`.<zone>`, then the suffix `.svc.<zone>` (in that order — note the
first strip makes the second one never fire on `svc`-form names), split
on dots, and read `<service...>.<namespace>`. -/
def parseServiceName (clusterDomain name : GoStr) :
    Except GoStr (GoStr × GoStr) :=
  let name1 := trimSuffix name ['.']
  let name2 := trimSuffix name1 ('.' :: clusterDomain)
  let name3 := trimSuffix name2 ('.' :: String.toList "svc." ++ clusterDomain)
  let parts := splitDot name3
  if parts.length < 2 then
    .error (String.toList "invalid service name format")
  else
    .ok (joinDot (parts.take (parts.length - 1)), parts.getLastD [])

/-- `Server.parseSRVName`: same suffix stripping, then
`_<port>._<protocol>.<service...>.<namespace>`. -/
def parseSRVName (clusterDomain name : GoStr) :
    Except GoStr (GoStr × GoStr × GoStr × GoStr) :=
  let name1 := trimSuffix name ['.']
  let name2 := trimSuffix name1 ('.' :: clusterDomain)
  let name3 := trimSuffix name2 ('.' :: String.toList "svc." ++ clusterDomain)
  let parts := splitDot name3
  if parts.length < 4 then
    .error (String.toList "invalid SRV name format")
  else if !(['_'].isPrefixOf (parts.headD []))
      || !(['_'].isPrefixOf ((parts.drop 1).headD [])) then
    .error (String.toList "invalid SRV name format")
  else
    .ok (trimPre (parts.headD []) ['_'],
      trimPre ((parts.drop 1).headD []) ['_'],
      joinDot ((parts.drop 2).take (parts.length - 3)),
      parts.getLastD [])

/-- An A resource record as the handlers emit it (name, TTL, address).
`dns.NewRR` is modelled as always succeeding, which it does for the
well-formed names and addresses considered here; a library parse error
would drop the individual record. -/
structure ARecord where
  name : GoStr
  ttl : Nat
  address : GoStr
  deriving Repr, DecidableEq

/-- An SRV resource record as `handleSRVQuery` emits it. -/
structure SRVRecord where
  name : GoStr
  ttl : Nat
  priority : Nat
  weight : Nat
  port : Int
  target : GoStr
  deriving Repr, DecidableEq

/-- `Server.handleAQuery`: parse the name, look up fresh endpoints, and
emit one TTL-60 A record per endpoint; parse or lookup failure leaves
the answer empty. -/
def handleAQuery (clusterDomain : GoStr) (reg : Registry) (now : Nat)
    (qname : GoStr) : List ARecord :=
  match parseServiceName clusterDomain qname with
  | .error _ => []
  | .ok (serviceName, namespaceName) =>
    match getServiceEndpoints reg now serviceName namespaceName with
    | .error _ => []
    | .ok endpoints =>
      endpoints.map (fun e => { name := qname, ttl := 60, address := e.address })

/-- The per-endpoint loop of `handleSRVQuery`: `priority` starts at 10
and is incremented by 10 at the end of every iteration whose index is
positive; each SRV record carries the single `targetPort`, and a glue A
record for the (shared) target is appended per endpoint. -/
def srvLoop (qname target : GoStr) (targetPort : Int) :
    Nat → Nat → List ServiceEndpoint → List SRVRecord × List ARecord
  | _, _, [] => ([], [])
  | priority, i, e :: rest =>
    let srv : SRVRecord :=
      { name := qname, ttl := 60, priority := priority, weight := 10,
        port := targetPort, target := target }
    let glue : ARecord := { name := target, ttl := 60, address := e.address }
    let priority' := if 0 < i then priority + 10 else priority
    let tail := srvLoop qname target targetPort priority' (i + 1) rest
    (srv :: tail.1, glue :: tail.2)

/-- `Server.handleSRVQuery`: parse, look up fresh endpoints, pick the
target port from the first endpoint (named-port matching is not
implemented), and run the record loop. -/
def handleSRVQuery (clusterDomain : GoStr) (reg : Registry) (now : Nat)
    (qname : GoStr) : List SRVRecord × List ARecord :=
  match parseSRVName clusterDomain qname with
  | .error _ => ([], [])
  | .ok (_portName, _protocol, serviceName, namespaceName) =>
    match getServiceEndpoints reg now serviceName namespaceName with
    | .error _ => ([], [])
    | .ok endpoints =>
      let targetPort : Int := ((endpoints.head?).map (fun e => e.port)).getD 0
      let target :=
        serviceName ++ '.' :: namespaceName ++ '.' :: clusterDomain ++ ['.']
      srvLoop qname target targetPort 10 0 endpoints

/-- The SRV answer exactly as claim C8 words it: one record per
endpoint, priorities 10, 20, 30, ... and each record carrying its own
endpoint's port. -/
def specSRVAnswer (qname target : GoStr) (endpoints : List ServiceEndpoint) :
    List SRVRecord :=
  endpoints.enum.map fun p =>
    { name := qname, ttl := 60, priority := 10 + 10 * p.1, weight := 10,
      port := p.2.port, target := target }

theorem srvLoop_length (q t : GoStr) (p : Int) (eps : List ServiceEndpoint) :
    ∀ (prio i : Nat),
      (srvLoop q t p prio i eps).1.length = eps.length
        ∧ (srvLoop q t p prio i eps).2.length = eps.length := by
  induction eps with
  | nil => intro prio i; simp [srvLoop]
  | cons e rest ih => intro prio i; simp [srvLoop, ih]

theorem srvLoop_get_of_pos (q t : GoStr) (p : Int) (eps : List ServiceEndpoint) :
    ∀ (prio i j : Nat), 1 ≤ i →
      ((srvLoop q t p prio i eps).1.get? j
          = (eps.get? j).map (fun _ =>
              ({ name := q, ttl := 60, priority := prio + 10 * j, weight := 10,
                 port := p, target := t } : SRVRecord)))
        ∧ ((srvLoop q t p prio i eps).2.get? j
          = (eps.get? j).map (fun e =>
              ({ name := t, ttl := 60, address := e.address } : ARecord))) := by
  induction eps with
  | nil => intro prio i j hi; simp [srvLoop]
  | cons e rest ih =>
    intro prio i j hi
    cases j with
    | zero => simp [srvLoop]
    | succ j' =>
      have hpos : 0 < i := hi
      have h := ih (prio + 10) (i + 1) j' (by omega)
      simp only [srvLoop, if_pos hpos, List.get?_cons_succ]
      refine ⟨?_, h.2⟩
      rw [h.1]
      simp only [show prio + 10 + 10 * j' = prio + 10 * (j' + 1) from by ring]

theorem srvLoop_get_main (q t : GoStr) (p : Int) (eps : List ServiceEndpoint)
    (j : Nat) :
    ((srvLoop q t p 10 0 eps).1.get? j
        = (eps.get? j).map (fun _ =>
            ({ name := q, ttl := 60, priority := 10 * max 1 j, weight := 10,
               port := p, target := t } : SRVRecord)))
      ∧ ((srvLoop q t p 10 0 eps).2.get? j
        = (eps.get? j).map (fun e =>
            ({ name := t, ttl := 60, address := e.address } : ARecord))) := by
  cases eps with
  | nil => simp [srvLoop]
  | cons e rest =>
    cases j with
    | zero => simp [srvLoop]
    | succ j' =>
      have h := srvLoop_get_of_pos q t p rest 10 1 j' (le_refl 1)
      simp only [srvLoop, Nat.lt_irrefl, if_false, List.get?_cons_succ]
      refine ⟨?_, h.2⟩
      rw [h.1]
      simp only [show 10 + 10 * j' = 10 * max 1 (j' + 1) from by omega]

/-! Concrete states shared by the DNS claim theorems. -/

/-- The default cluster zone. -/
def zoneCL : GoStr := String.toList "cluster.local"

/-- A fresh, healthy endpoint of service `postgres` in namespace
`default` at `10.0.1.1:5432`, seen at instant 100. -/
def epPG1 : ServiceEndpoint :=
  { serviceName := String.toList "postgres"
    namespaceName := String.toList "default"
    podID := String.toList "p1"
    podName := String.toList "postgres-0"
    nodeName := String.toList "n1"
    address := String.toList "10.0.1.1"
    port := 5432, healthy := true, lastSeen := 100 }

/-- A second fresh endpoint of the same service at `10.0.1.2:5433`. -/
def epPG2 : ServiceEndpoint :=
  { epPG1 with
    podID := String.toList "p2"
    podName := String.toList "postgres-1"
    address := String.toList "10.0.1.2"
    port := 5433 }

/-- Registry holding only `epPG1`. -/
def regPG1 : Registry :=
  [(serviceKey (String.toList "postgres") (String.toList "default"),
    [(endpointID (String.toList "default") (String.toList "postgres")
        (String.toList "p1"), epPG1)])]

/-- Registry holding `epPG1` and `epPG2`. -/
def regPG2 : Registry :=
  [(serviceKey (String.toList "postgres") (String.toList "default"),
    [(endpointID (String.toList "default") (String.toList "postgres")
        (String.toList "p1"), epPG1),
     (endpointID (String.toList "default") (String.toList "postgres")
        (String.toList "p2"), epPG2)])]

/-- Claim C1: the code, evaluated at the failing input. Because
`parseServiceName` strips `.<zone>` before it tries `.svc.<zone>`, the
Kubernetes-compatible name `postgres.default.svc.cluster.local.` parses
to service `postgres.default` in namespace `svc` — contradicting the
function's own documentation — so its A answer is empty while the plain
form `postgres.default.cluster.local.` resolves to the endpoint: the
two forms do not resolve identically. -/
theorem claim_C1_theorem :
    parseServiceName zoneCL
        (String.toList "postgres.default.svc.cluster.local.")
      = .ok (String.toList "postgres.default", String.toList "svc")
    ∧ handleAQuery zoneCL regPG1 100
        (String.toList "postgres.default.cluster.local.")
      = [{ name := String.toList "postgres.default.cluster.local.",
           ttl := 60, address := String.toList "10.0.1.1" }]
    ∧ handleAQuery zoneCL regPG1 100
        (String.toList "postgres.default.svc.cluster.local.") = [] := by
  refine ⟨by decide, by decide, by decide⟩

/-- Claim C8 is refuted on a registry with two fresh endpoints (ports
5432 and 5433): the code emits priorities 10, 10 (the increment is
skipped after the first iteration) and gives every record the first
endpoint's port, while the claim predicts priorities 10, 20 and each
endpoint's own port. -/
theorem claim_C8_counterexample :
    (handleSRVQuery zoneCL regPG2 100
        (String.toList "_http._tcp.postgres.default.cluster.local.")).1.map
          (fun r => (r.priority, r.port)) = [(10, 5432), (10, 5432)]
    ∧ (specSRVAnswer
          (String.toList "_http._tcp.postgres.default.cluster.local.")
          (String.toList "postgres.default.cluster.local.")
          [epPG1, epPG2]).map (fun r => (r.priority, r.port))
        = [(10, 5432), (20, 5433)]
    ∧ (handleSRVQuery zoneCL regPG2 100
          (String.toList "_http._tcp.postgres.default.cluster.local.")).1
        ≠ specSRVAnswer
            (String.toList "_http._tcp.postgres.default.cluster.local.")
            (String.toList "postgres.default.cluster.local.")
            [epPG1, epPG2] := by
  refine ⟨by decide, by decide, by decide⟩

/-- Claim C8 (amended): for every SRV query that parses and every
registry lookup returning the fresh endpoint list `eps`, the answer has
one SRV record per endpoint whose priority is `10 * max 1 j` for the
`j`-th record (10, 10, 20, 30, ...), weight 10, port equal to the FIRST
endpoint's port for every record, and target
`<service>.<namespace>.<zone>.`; the Additional section carries one glue
A record per endpoint, each for that same target name. -/
theorem claim_C8_amended (clusterDomain qname portName protocol
    serviceName namespaceName : GoStr) (reg : Registry) (now : Nat)
    (eps : List ServiceEndpoint)
    (hparse : parseSRVName clusterDomain qname
      = .ok (portName, protocol, serviceName, namespaceName))
    (heps : getServiceEndpoints reg now serviceName namespaceName = .ok eps) :
    (handleSRVQuery clusterDomain reg now qname).1.length = eps.length
    ∧ (handleSRVQuery clusterDomain reg now qname).2.length = eps.length
    ∧ ∀ j : Nat,
        ((handleSRVQuery clusterDomain reg now qname).1.get? j
          = (eps.get? j).map (fun _ =>
              ({ name := qname, ttl := 60, priority := 10 * max 1 j,
                 weight := 10, port := ((eps.head?).map (fun e => e.port)).getD 0,
                 target := serviceName ++ '.' :: namespaceName ++ '.' ::
                   clusterDomain ++ ['.'] } : SRVRecord)))
        ∧ ((handleSRVQuery clusterDomain reg now qname).2.get? j
          = (eps.get? j).map (fun e =>
              ({ name := serviceName ++ '.' :: namespaceName ++ '.' ::
                   clusterDomain ++ ['.'], ttl := 60,
                 address := e.address } : ARecord))) := by
  have hunf : handleSRVQuery clusterDomain reg now qname
      = srvLoop qname
          (serviceName ++ '.' :: namespaceName ++ '.' :: clusterDomain ++ ['.'])
          (((eps.head?).map (fun e => e.port)).getD 0) 10 0 eps := by
    simp [handleSRVQuery, hparse, heps]
  rw [hunf]
  exact ⟨(srvLoop_length _ _ _ _ 10 0).1, (srvLoop_length _ _ _ _ 10 0).2,
    fun j => srvLoop_get_main _ _ _ _ j⟩

/-- Claim C8 amended theorem, applied at a concrete registry with two
fresh endpoints. -/
theorem claim_C8_witness :
    (handleSRVQuery zoneCL regPG2 100
        (String.toList "_http._tcp.postgres.default.cluster.local.")).1.length
      = [epPG1, epPG2].length :=
  (claim_C8_amended zoneCL
    (String.toList "_http._tcp.postgres.default.cluster.local.")
    (String.toList "http") (String.toList "tcp")
    (String.toList "postgres") (String.toList "default")
    regPG2 100 [epPG1, epPG2] (by decide) (by decide)).1

/-! ### DNS forwarding pipeline (internal/dns `forwardQuery`,
`validateCNAMERecords`, `extractCNAMETargets`)

The network behaviour of each upstream is an oracle: what its UDP
exchange and its TCP exchange would return (`none` models a transport
error from `client.Exchange`). The embedding also returns the trace of
exchange attempts actually made, so that "which upstream was contacted,
over which transport, with which timeout" is part of the modelled
observable behaviour. -/

/-- Transport used for one exchange attempt. -/
inductive Transport where
  | udp
  | tcp
  deriving Repr, DecidableEq

/-- One `client.Exchange` call: target upstream, transport, and the
client timeout in seconds (the source always sets 5 seconds). -/
structure Attempt where
  upstream : GoStr
  transport : Transport
  timeoutSec : Nat
  deriving Repr, DecidableEq

/-- The parts of an upstream DNS response the forwarding code inspects:
its return code and the CNAME targets in its Answer and Additional
sections. -/
structure DNSResp where
  rcode : Nat
  answerCNAMEs : List GoStr
  extraCNAMEs : List GoStr
  deriving Repr, DecidableEq

/-- The oracle for one upstream: result of a UDP exchange and result of
a TCP exchange (`none` is a transport error). -/
structure UpstreamConn where
  udp : Option DNSResp
  tcp : Option DNSResp
  deriving Repr, DecidableEq

/-- The reply the handler writes back for a forwarded query. -/
inductive Reply where
  | refused
  | servfail
  | forwarded (resp : DNSResp)
  deriving Repr, DecidableEq

/-- The `seen`-map dedup loop of `extractCNAMETargets`. -/
def dedupFirst : List GoStr → List GoStr → List GoStr
  | _, [] => []
  | seen, t :: rest =>
    if t ∈ seen then dedupFirst seen rest
    else t :: dedupFirst (t :: seen) rest

/-- `Server.extractCNAMETargets`: normalized CNAME targets from Answer
then Extra, first occurrence kept. -/
def extractCNAMETargets (resp : DNSResp) : List GoStr :=
  dedupFirst []
    ((resp.answerCNAMEs ++ resp.extraCNAMEs).map
      (fun t => lowerStr (trimSuffix t ['.'])))

/-- `Server.validateCNAMERecords`: every CNAME target in Answer, in
Extra, and in the deduplicated normalized chain must be allowed. -/
def validateCNAMERecords (w : DNSWhitelist) (resp : DNSResp) : Bool :=
  resp.answerCNAMEs.all (fun t => isHostAllowed w t)
    && resp.extraCNAMEs.all (fun t => isHostAllowed w t)
    && (extractCNAMETargets resp).all (fun t => isHostAllowed w t)

/-- The exchange attempts one loop iteration makes against one
upstream: UDP (5 s timeout), then TCP (same client, still 5 s) only if
the UDP exchange returned a transport error. -/
def attemptsOf (name : GoStr) (conn : UpstreamConn) : List Attempt :=
  match conn.udp with
  | some _ => [{ upstream := name, transport := .udp, timeoutSec := 5 }]
  | none => [{ upstream := name, transport := .udp, timeoutSec := 5 },
             { upstream := name, transport := .tcp, timeoutSec := 5 }]

/-- The response one loop iteration ends up holding: the UDP response if
the UDP exchange succeeded, else the TCP one, else none. -/
def exchangeResult (conn : UpstreamConn) : Option DNSResp :=
  match conn.udp with
  | some r => some r
  | none => conn.tcp

/-- The upstream loop of `forwardQuery`, with the attempt trace made
explicit. -/
def forwardLoop (w : DNSWhitelist) :
    List (GoStr × UpstreamConn) → List Attempt → Reply × List Attempt
  | [], acc => (.servfail, acc)
  | (name, conn) :: rest, acc =>
    let acc' := acc ++ attemptsOf name conn
    match exchangeResult conn with
    | none => forwardLoop w rest acc'
    | some resp =>
      if resp.rcode = 0 then
        if w.enabled && !validateCNAMERecords w resp then
          forwardLoop w rest acc'
        else (.forwarded resp, acc')
      else forwardLoop w rest acc'

/-- `Server.forwardQuery`: whitelist check first (reply REFUSED with no
exchange), then the upstream loop; SERVFAIL when the loop exhausts the
chain. -/
def forwardQuery (w : DNSWhitelist) (qname : GoStr)
    (ups : List (GoStr × UpstreamConn)) : Reply × List Attempt :=
  if w.enabled && !isHostAllowed w qname then (.refused, [])
  else forwardLoop w ups []

/-- An upstream yields a usable response iff some transport returned a
response whose rcode is RcodeSuccess and whose CNAMEs pass the
whitelist check (when the whitelist is enabled). -/
def usableUpstream (w : DNSWhitelist) (conn : UpstreamConn) : Bool :=
  match exchangeResult conn with
  | none => false
  | some resp =>
    decide (resp.rcode = 0) && !(w.enabled && !validateCNAMERecords w resp)

theorem forwardLoop_all_unusable (w : DNSWhitelist)
    (ups : List (GoStr × UpstreamConn))
    (h : ∀ p ∈ ups, usableUpstream w p.2 = false) :
    ∀ acc, forwardLoop w ups acc
      = (.servfail, acc ++ ups.flatMap (fun p => attemptsOf p.1 p.2)) := by
  induction ups with
  | nil => intro acc; simp [forwardLoop]
  | cons p rest ih =>
    intro acc
    obtain ⟨name, conn⟩ := p
    have hp := h (name, conn) (List.mem_cons_self _ _)
    have hrest : ∀ q ∈ rest, usableUpstream w q.2 = false :=
      fun q hq => h q (List.mem_cons_of_mem _ hq)
    simp only [forwardLoop]
    rcases hx : exchangeResult conn with _ | resp
    · rw [ih hrest]
      simp [List.flatMap_cons, List.append_assoc]
    · simp only [usableUpstream, hx] at hp
      by_cases hrc : resp.rcode = 0
      · have hval : (w.enabled && !validateCNAMERecords w resp) = true := by
          rcases hb : (w.enabled && !validateCNAMERecords w resp) with _ | _
          · simp [hrc, hb] at hp
          · rfl
        simp only [if_pos hrc, hval, if_pos rfl]
        rw [ih hrest]
        simp [List.flatMap_cons, List.append_assoc]
      · simp only [if_neg hrc]
        rw [ih hrest]
        simp [List.flatMap_cons, List.append_assoc]

theorem forwardLoop_first_usable (w : DNSWhitelist) (name : GoStr)
    (conn : UpstreamConn) (resp : DNSResp)
    (hx : exchangeResult conn = some resp)
    (hu : usableUpstream w conn = true) :
    ∀ (pre post : List (GoStr × UpstreamConn)),
      (∀ p ∈ pre, usableUpstream w p.2 = false) →
      ∀ acc, forwardLoop w (pre ++ (name, conn) :: post) acc
        = (.forwarded resp,
            acc ++ pre.flatMap (fun p => attemptsOf p.1 p.2)
              ++ attemptsOf name conn) := by
  intro pre
  induction pre with
  | nil =>
    intro post _ acc
    simp only [usableUpstream, hx] at hu
    have hrc : resp.rcode = 0 := by
      rcases hr : decide (resp.rcode = 0) with _ | _
      · simp [hr] at hu
      · exact of_decide_eq_true hr
    have hval : (w.enabled && !validateCNAMERecords w resp) = false := by
      rcases hb : (w.enabled && !validateCNAMERecords w resp) with _ | _
      · rfl
      · simp [hb] at hu
    simp [forwardLoop, hx, hrc, hval]
  | cons p rest ih =>
    intro post hpre acc
    obtain ⟨n2, c2⟩ := p
    have hp := hpre (n2, c2) (List.mem_cons_self _ _)
    have hrest : ∀ q ∈ rest, usableUpstream w q.2 = false :=
      fun q hq => hpre q (List.mem_cons_of_mem _ hq)
    rcases hx2 : exchangeResult c2 with _ | r2
    · have hstep : forwardLoop w (((n2, c2) :: rest) ++ (name, conn) :: post) acc
          = forwardLoop w (rest ++ (name, conn) :: post)
              (acc ++ attemptsOf n2 c2) := by
        simp [forwardLoop, hx2]
      rw [hstep, ih post hrest]
      simp [List.flatMap_cons, List.append_assoc]
    · simp only [usableUpstream, hx2] at hp
      by_cases hrc2 : r2.rcode = 0
      · have hval2 : (w.enabled && !validateCNAMERecords w r2) = true := by
          rcases hb : (w.enabled && !validateCNAMERecords w r2) with _ | _
          · simp [hrc2, hb] at hp
          · rfl
        have hstep : forwardLoop w (((n2, c2) :: rest) ++ (name, conn) :: post) acc
            = forwardLoop w (rest ++ (name, conn) :: post)
                (acc ++ attemptsOf n2 c2) := by
          simp [forwardLoop, hx2, hrc2, hval2]
        rw [hstep, ih post hrest]
        simp [List.flatMap_cons, List.append_assoc]
      · have hstep : forwardLoop w (((n2, c2) :: rest) ++ (name, conn) :: post) acc
            = forwardLoop w (rest ++ (name, conn) :: post)
                (acc ++ attemptsOf n2 c2) := by
          simp [forwardLoop, hx2, hrc2]
        rw [hstep, ih post hrest]
        simp [List.flatMap_cons, List.append_assoc]

/-- Claim C5: (1) with the whitelist enabled and the question name not
allowed, the reply is REFUSED and no upstream exchange is attempted;
(2) otherwise, when no upstream yields a usable response, every
upstream in order is attempted — UDP with a 5-second timeout, then TCP
(same timeout) exactly when UDP returned a transport error — and the
reply is SERVFAIL; (3) the first upstream yielding a usable response
stops the chain, its response is the reply, and the trace covers
exactly the failed prefix plus this upstream; (4) a RcodeSuccess
response whose CNAMEs fail the whitelist check is not usable, so that
upstream is treated as failed and the chain continues. -/
theorem claim_C5_theorem (w : DNSWhitelist) (qname : GoStr)
    (ups : List (GoStr × UpstreamConn)) :
    ((w.enabled && !isHostAllowed w qname) = true →
      forwardQuery w qname ups = (.refused, []))
    ∧ ((w.enabled && !isHostAllowed w qname) = false →
        (∀ p ∈ ups, usableUpstream w p.2 = false) →
        forwardQuery w qname ups
          = (.servfail, ups.flatMap (fun p => attemptsOf p.1 p.2)))
    ∧ ((w.enabled && !isHostAllowed w qname) = false →
        ∀ (pre post : List (GoStr × UpstreamConn)) (name : GoStr)
          (conn : UpstreamConn) (resp : DNSResp),
          ups = pre ++ (name, conn) :: post →
          (∀ p ∈ pre, usableUpstream w p.2 = false) →
          exchangeResult conn = some resp →
          usableUpstream w conn = true →
          forwardQuery w qname ups
            = (.forwarded resp,
                pre.flatMap (fun p => attemptsOf p.1 p.2)
                  ++ attemptsOf name conn))
    ∧ (∀ (conn : UpstreamConn) (resp : DNSResp),
        exchangeResult conn = some resp → resp.rcode = 0 →
        w.enabled = true → validateCNAMERecords w resp = false →
        usableUpstream w conn = false)
    ∧ (∀ (name : GoStr) (conn : UpstreamConn),
        (conn.udp.isSome →
          attemptsOf name conn
            = [{ upstream := name, transport := .udp, timeoutSec := 5 }])
        ∧ (conn.udp = none →
          attemptsOf name conn
            = [{ upstream := name, transport := .udp, timeoutSec := 5 },
               { upstream := name, transport := .tcp, timeoutSec := 5 }])) := by
  refine ⟨?_, ?_, ?_, ?_, ?_⟩
  · intro hb
    simp [forwardQuery, hb]
  · intro hb hall
    rw [forwardQuery, if_neg (by simp [hb])]
    simpa using forwardLoop_all_unusable w ups hall []
  · intro hb pre post name conn resp hsplit hpre hx hu
    rw [forwardQuery, if_neg (by simp [hb]), hsplit]
    simpa using forwardLoop_first_usable w name conn resp hx hu pre post hpre []
  · intro conn resp hx hrc hen hval
    simp [usableUpstream, hx, hrc, hen, hval]
  · intro name conn
    constructor
    · intro hs
      rcases hu : conn.udp with _ | r
      · rw [hu] at hs; simp at hs
      · simp [attemptsOf, hu]
    · intro hn
      simp [attemptsOf, hn]

/-- Claim C5 theorem, applied concretely: an enabled whitelist that
does not allow the (external) question name refuses it with no
exchange attempted, and with the whitelist disabled a chain of two
upstreams that both fail on UDP and TCP yields SERVFAIL after four
attempts. -/
theorem claim_C5_witness :
    forwardQuery (setWhitelist true [String.toList "example.com"])
        (String.toList "evil.net.")
        [(String.toList "8.8.8.8:53",
          { udp := some { rcode := 0, answerCNAMEs := [], extraCNAMEs := [] },
            tcp := none })]
      = (.refused, [])
    ∧ forwardQuery { enabled := false, hosts := [] }
        (String.toList "example.org.")
        [(String.toList "8.8.8.8:53", { udp := none, tcp := none }),
         (String.toList "8.8.4.4:53", { udp := none, tcp := none })]
      = (.servfail,
          [{ upstream := String.toList "8.8.8.8:53", transport := .udp,
             timeoutSec := 5 },
           { upstream := String.toList "8.8.8.8:53", transport := .tcp,
             timeoutSec := 5 },
           { upstream := String.toList "8.8.4.4:53", transport := .udp,
             timeoutSec := 5 },
           { upstream := String.toList "8.8.4.4:53", transport := .tcp,
             timeoutSec := 5 }]) :=
  ⟨(claim_C5_theorem _ _ _).1 (by decide),
   by
    have h := (claim_C5_theorem { enabled := false, hosts := [] }
      (String.toList "example.org.")
      [(String.toList "8.8.8.8:53", { udp := none, tcp := none }),
       (String.toList "8.8.4.4:53", { udp := none, tcp := none })]).2.1
      (by decide) (by decide)
    rw [h]
    rfl⟩

/-! ### Declared-state records (internal/types)

String fields use `GoStr`. Fields whose types come from the external
Kubernetes API library (`Ports`, `Env`, `Volumes`, `Annotations`, the
pod `Template`, `ServiceType`, resource lists) are consumed only by the
out-of-scope parser / runtime adapter and are omitted; no claim
observes them. The `metav1.LabelSelector` is carried as its match-label
pairs. -/

/-- `types.PodState`. -/
inductive PodState where
  | pending
  | running
  | succeeded
  | failed
  | unknown
  deriving Repr, DecidableEq

/-- `types.Pod`. -/
structure Pod where
  id : GoStr
  name : GoStr
  namespaceName : GoStr
  nodeName : GoStr
  state : PodState
  image : GoStr
  labels : List (GoStr × GoStr)
  nodeSelector : List (GoStr × GoStr)
  createdAt : Int
  deriving Repr, DecidableEq

/-- `types.Deployment`. -/
structure Deployment where
  name : GoStr
  namespaceName : GoStr
  replicas : Int
  desiredReplicas : Int
  pods : List Pod
  labels : List (GoStr × GoStr)
  selector : List (GoStr × GoStr)
  deriving Repr, DecidableEq

/-- `types.ServicePort`. -/
structure ServicePort where
  name : GoStr
  port : Int
  targetPort : Int
  deriving Repr, DecidableEq

/-- `types.Service`. -/
structure Service where
  name : GoStr
  namespaceName : GoStr
  selector : List (GoStr × GoStr)
  ports : List ServicePort
  clusterIP : GoStr
  labels : List (GoStr × GoStr)
  deriving Repr, DecidableEq

/-- `types.IngressPath`. -/
structure IngressPath where
  path : GoStr
  pathType : Option GoStr
  serviceName : GoStr
  servicePort : Int
  deriving Repr, DecidableEq

/-- `types.IngressRule`. -/
structure IngressRule where
  host : GoStr
  paths : List IngressPath
  deriving Repr, DecidableEq

/-- `types.Ingress`. -/
structure Ingress where
  name : GoStr
  namespaceName : GoStr
  rules : List IngressRule
  labels : List (GoStr × GoStr)
  deriving Repr, DecidableEq

/-! ### Persistent store (internal/storage) -/

/-- `storage.ClusterState`: the snapshot that is persisted and
broadcast. Map keys are `<namespace>/<name>`. -/
structure ClusterState where
  deployments : List (GoStr × Deployment)
  services : List (GoStr × Service)
  ingresses : List (GoStr × Ingress)
  pods : List (GoStr × Pod)
  lastModified : Nat
  version : Int
  deriving Repr, DecidableEq

/-- `storage.Storage`: the four entity maps, `lastModified`, and the
content of `state.json` (`disk`; `none` when the file is absent).
`persist` is modelled on its success path — a write failure leaves the
in-memory state as modelled and retries on the next mutation. -/
structure Storage where
  deployments : List (GoStr × Deployment)
  services : List (GoStr × Service)
  ingresses : List (GoStr × Ingress)
  pods : List (GoStr × Pod)
  lastModified : Nat
  disk : Option ClusterState
  deriving Repr, DecidableEq

/-- `fmt.Sprintf("%s/%s", namespace, name)`. -/
def storeKey (namespaceName name : GoStr) : GoStr :=
  namespaceName ++ '/' :: name

/-- `Storage.GetState` (also the snapshot `persist` serializes). -/
def getState (s : Storage) : ClusterState :=
  { deployments := s.deployments, services := s.services,
    ingresses := s.ingresses, pods := s.pods,
    lastModified := s.lastModified, version := 1 }

/-- `Storage.persist`: write the serialized snapshot to `state.json.tmp`
and rename it over `state.json`. -/
def persist (s : Storage) : Storage :=
  { s with disk := some (getState s) }

/-- `Storage.SaveDeployment`. -/
def saveDeployment (now : Nat) (s : Storage) (d : Deployment) : Storage :=
  persist { s with
    deployments := upsert (storeKey d.namespaceName d.name) d s.deployments,
    lastModified := now }

/-- `Storage.GetDeployment`. -/
def getDeployment (s : Storage) (namespaceName name : GoStr) :
    Except GoStr Deployment :=
  match lookupKV s.deployments (storeKey namespaceName name) with
  | none => .error (String.toList "deployment not found")
  | some d => .ok d

/-- `Storage.DeleteDeployment`. -/
def deleteDeployment (now : Nat) (s : Storage) (namespaceName name : GoStr) :
    Storage :=
  persist { s with
    deployments := eraseKV s.deployments (storeKey namespaceName name),
    lastModified := now }

/-- `Storage.SaveService`. -/
def saveService (now : Nat) (s : Storage) (svc : Service) : Storage :=
  persist { s with
    services := upsert (storeKey svc.namespaceName svc.name) svc s.services,
    lastModified := now }

/-- `Storage.GetService`. -/
def getService (s : Storage) (namespaceName name : GoStr) :
    Except GoStr Service :=
  match lookupKV s.services (storeKey namespaceName name) with
  | none => .error (String.toList "service not found")
  | some svc => .ok svc

/-- `Storage.DeleteService`. -/
def deleteService (now : Nat) (s : Storage) (namespaceName name : GoStr) :
    Storage :=
  persist { s with
    services := eraseKV s.services (storeKey namespaceName name),
    lastModified := now }

/-- `Storage.SaveIngress`. -/
def saveIngress (now : Nat) (s : Storage) (ing : Ingress) : Storage :=
  persist { s with
    ingresses := upsert (storeKey ing.namespaceName ing.name) ing s.ingresses,
    lastModified := now }

/-- `Storage.GetIngress`. -/
def getIngress (s : Storage) (namespaceName name : GoStr) :
    Except GoStr Ingress :=
  match lookupKV s.ingresses (storeKey namespaceName name) with
  | none => .error (String.toList "ingress not found")
  | some ing => .ok ing

/-- `Storage.DeleteIngress`. -/
def deleteIngress (now : Nat) (s : Storage) (namespaceName name : GoStr) :
    Storage :=
  persist { s with
    ingresses := eraseKV s.ingresses (storeKey namespaceName name),
    lastModified := now }

/-- The per-pod merge step of `MergeState`: keep the incoming record
when the key is absent locally or the incoming `CreatedAt` is strictly
greater. -/
def mergePodStep (m : List (GoStr × Pod)) (p : GoStr × Pod) :
    List (GoStr × Pod) :=
  match lookupKV m p.1 with
  | none => upsert p.1 p.2 m
  | some existing =>
    if existing.createdAt < p.2.createdAt then upsert p.1 p.2 m else m

/-- `Storage.MergeState`: when the incoming snapshot is strictly newer,
overwrite deployments/services/ingresses per key, merge pods by
`CreatedAt` precedence, stamp `lastModified` with the current time and
persist; otherwise leave the store untouched. -/
def mergeState (now : Nat) (s : Storage) (inc : ClusterState) : Storage :=
  if s.lastModified < inc.lastModified then
    persist
      { deployments :=
          inc.deployments.foldl (fun m p => upsert p.1 p.2 m) s.deployments
        services :=
          inc.services.foldl (fun m p => upsert p.1 p.2 m) s.services
        ingresses :=
          inc.ingresses.foldl (fun m p => upsert p.1 p.2 m) s.ingresses
        pods := inc.pods.foldl mergePodStep s.pods
        lastModified := now
        disk := s.disk }
  else s

/-- The value a key ends up with after an overwrite-merge: the incoming
entry when present, else the local one. -/
def overrideWith {α : Type} (incoming localv : Option α) : Option α :=
  match incoming with
  | some v => some v
  | none => localv

/-- The value a pod key ends up with after the merge: incoming wins
only when the local record is absent or strictly older by
`created_at`. -/
def mergePodRule (incoming existing : Option Pod) : Option Pod :=
  match incoming, existing with
  | some p, some ex =>
    if ex.createdAt < p.createdAt then some p else some ex
  | some p, none => some p
  | none, ex => ex

theorem lookupKV_foldl_upsert {α : Type} :
    ∀ (inc : List (GoStr × α)), (keysOf inc).Nodup →
    ∀ (m : List (GoStr × α)) (k : GoStr),
      lookupKV (inc.foldl (fun m p => upsert p.1 p.2 m) m) k
        = overrideWith (lookupKV inc k) (lookupKV m k) := by
  intro inc
  induction inc with
  | nil => intro _ m k; simp [lookupKV, overrideWith]
  | cons p rest ih =>
    intro hn m k
    obtain ⟨a, v⟩ := p
    have hkeys : keysOf ((a, v) :: rest) = a :: keysOf rest := rfl
    rw [hkeys] at hn
    have hna : a ∉ keysOf rest := (List.nodup_cons.mp hn).1
    have hnr : (keysOf rest).Nodup := (List.nodup_cons.mp hn).2
    simp only [List.foldl_cons]
    rw [ih hnr (upsert a v m) k]
    by_cases hk : k = a
    · subst hk
      rw [lookupKV_eq_none_of_not_mem rest k hna]
      show overrideWith none (lookupKV (upsert k v m) k)
        = overrideWith (lookupKV ((k, v) :: rest) k) (lookupKV m k)
      rw [lookupKV_upsert, if_pos rfl]
      simp [lookupKV, overrideWith]
    · have hk' : ¬ a = k := fun h => hk h.symm
      simp only [lookupKV]
      rw [if_neg hk']
      cases hlr : lookupKV rest k with
      | none =>
        simp only [overrideWith]
        rw [lookupKV_upsert, if_neg hk']
      | some w => rfl

theorem lookupKV_mergePodStep (m : List (GoStr × Pod)) (a : GoStr) (p : Pod)
    (k : GoStr) :
    lookupKV (mergePodStep m (a, p)) k
      = if k = a then mergePodRule (some p) (lookupKV m a)
        else lookupKV m k := by
  unfold mergePodStep
  cases hma : lookupKV m a with
  | none =>
    rw [lookupKV_upsert]
    by_cases hk : k = a
    · subst hk; simp [hma, mergePodRule]
    · rw [if_neg (fun h => hk h.symm), if_neg hk]
  | some ex =>
    by_cases hc : ex.createdAt < p.createdAt
    · simp only [if_pos hc]
      rw [lookupKV_upsert]
      by_cases hk : k = a
      · subst hk; simp [hma, mergePodRule, hc]
      · rw [if_neg (fun h => hk h.symm), if_neg hk]
    · simp only [if_neg hc]
      by_cases hk : k = a
      · subst hk; simp [hma, mergePodRule, hc]
      · rw [if_neg hk]

theorem lookupKV_foldl_mergePodStep :
    ∀ (inc : List (GoStr × Pod)), (keysOf inc).Nodup →
    ∀ (m : List (GoStr × Pod)) (k : GoStr),
      lookupKV (inc.foldl mergePodStep m) k
        = mergePodRule (lookupKV inc k) (lookupKV m k) := by
  intro inc
  induction inc with
  | nil => intro _ m k; simp [lookupKV, mergePodRule]
  | cons q rest ih =>
    intro hn m k
    obtain ⟨a, p⟩ := q
    have hkeys : keysOf ((a, p) :: rest) = a :: keysOf rest := rfl
    rw [hkeys] at hn
    have hna : a ∉ keysOf rest := (List.nodup_cons.mp hn).1
    have hnr : (keysOf rest).Nodup := (List.nodup_cons.mp hn).2
    simp only [List.foldl_cons]
    rw [ih hnr (mergePodStep m (a, p)) k]
    by_cases hk : k = a
    · subst hk
      rw [lookupKV_eq_none_of_not_mem rest k hna]
      rw [lookupKV_mergePodStep, if_pos rfl]
      show mergePodRule none (mergePodRule (some p) (lookupKV m k))
        = mergePodRule (lookupKV ((k, p) :: rest) k) (lookupKV m k)
      simp [lookupKV, mergePodRule]
    · have hk' : ¬ a = k := fun h => hk h.symm
      rw [lookupKV_mergePodStep, if_neg hk]
      simp only [lookupKV]
      rw [if_neg hk']

theorem lookupKV_isSome_foldl_upsert {α : Type} :
    ∀ (inc : List (GoStr × α)) (m : List (GoStr × α)) (k : GoStr),
      (lookupKV m k).isSome = true →
      (lookupKV (inc.foldl (fun m p => upsert p.1 p.2 m) m) k).isSome = true := by
  intro inc
  induction inc with
  | nil => intro m k h; simpa using h
  | cons p rest ih =>
    intro m k h
    simp only [List.foldl_cons]
    exact ih (upsert p.1 p.2 m) k (lookupKV_isSome_upsert m p.1 k p.2 h)

theorem lookupKV_isSome_foldl_mergePodStep :
    ∀ (inc : List (GoStr × Pod)) (m : List (GoStr × Pod)) (k : GoStr),
      (lookupKV m k).isSome = true →
      (lookupKV (inc.foldl mergePodStep m) k).isSome = true := by
  intro inc
  induction inc with
  | nil => intro m k h; simpa using h
  | cons q rest ih =>
    intro m k h
    obtain ⟨a, p⟩ := q
    simp only [List.foldl_cons]
    refine ih (mergePodStep m (a, p)) k ?_
    rw [lookupKV_mergePodStep]
    by_cases hk : k = a
    · subst hk
      rw [if_pos rfl]
      cases hma : lookupKV m k with
      | none => simp [mergePodRule]
      | some ex =>
        simp only [mergePodRule]
        by_cases hc : ex.createdAt < p.createdAt <;> simp [hc]
    · rw [if_neg hk]; exact h

/-- Claim C4: when the incoming snapshot's `last_modified` is strictly
newer, `MergeState` overwrites the local entry at every key of the
incoming deployments/services/ingresses maps, keeps for each pod key
the record with the strictly greater `created_at` (the local record on
a tie), sets the local `last_modified` to the current time and
persists the merged snapshot; when the incoming snapshot is older or
equal, the store is left completely unchanged. -/
theorem claim_C4_theorem (s : Storage) (inc : ClusterState) (now : Nat)
    (hnd : (keysOf inc.deployments).Nodup)
    (hns : (keysOf inc.services).Nodup)
    (hni : (keysOf inc.ingresses).Nodup)
    (hnp : (keysOf inc.pods).Nodup) :
    (s.lastModified < inc.lastModified →
      (mergeState now s inc).lastModified = now
      ∧ (mergeState now s inc).disk = some (getState (mergeState now s inc))
      ∧ (∀ k, lookupKV (mergeState now s inc).deployments k
          = overrideWith (lookupKV inc.deployments k)
              (lookupKV s.deployments k))
      ∧ (∀ k, lookupKV (mergeState now s inc).services k
          = overrideWith (lookupKV inc.services k) (lookupKV s.services k))
      ∧ (∀ k, lookupKV (mergeState now s inc).ingresses k
          = overrideWith (lookupKV inc.ingresses k) (lookupKV s.ingresses k))
      ∧ (∀ k, lookupKV (mergeState now s inc).pods k
          = mergePodRule (lookupKV inc.pods k) (lookupKV s.pods k)))
    ∧ (¬ s.lastModified < inc.lastModified → mergeState now s inc = s) := by
  constructor
  · intro hlt
    simp only [mergeState, if_pos hlt, persist, getState]
    refine ⟨trivial, trivial, ?_, ?_, ?_, ?_⟩
    · intro k; exact lookupKV_foldl_upsert inc.deployments hnd s.deployments k
    · intro k; exact lookupKV_foldl_upsert inc.services hns s.services k
    · intro k; exact lookupKV_foldl_upsert inc.ingresses hni s.ingresses k
    · intro k; exact lookupKV_foldl_mergePodStep inc.pods hnp s.pods k
  · intro hge
    simp [mergeState, if_neg hge]

/-- Claim C10: `MergeState` never removes entries — every key present
in any of the four entity maps before the merge is still present
afterwards, whatever the incoming snapshot contains. -/
theorem claim_C10_theorem (s : Storage) (inc : ClusterState) (now : Nat)
    (k : GoStr) :
    ((lookupKV s.deployments k).isSome = true →
      (lookupKV (mergeState now s inc).deployments k).isSome = true)
    ∧ ((lookupKV s.services k).isSome = true →
      (lookupKV (mergeState now s inc).services k).isSome = true)
    ∧ ((lookupKV s.ingresses k).isSome = true →
      (lookupKV (mergeState now s inc).ingresses k).isSome = true)
    ∧ ((lookupKV s.pods k).isSome = true →
      (lookupKV (mergeState now s inc).pods k).isSome = true) := by
  by_cases hlt : s.lastModified < inc.lastModified
  · simp only [mergeState, if_pos hlt]
    exact ⟨lookupKV_isSome_foldl_upsert inc.deployments s.deployments k,
      lookupKV_isSome_foldl_upsert inc.services s.services k,
      lookupKV_isSome_foldl_upsert inc.ingresses s.ingresses k,
      lookupKV_isSome_foldl_mergePodStep inc.pods s.pods k⟩
  · simp [mergeState, if_neg hlt]

/-! Concrete store states for the storage claim witnesses. -/

/-- A minimal deployment record `default/web`. -/
def depWeb : Deployment :=
  { name := String.toList "web", namespaceName := String.toList "default",
    replicas := 1, desiredReplicas := 1, pods := [], labels := [],
    selector := [] }

/-- A second deployment record `default/api`. -/
def depApi : Deployment :=
  { depWeb with name := String.toList "api" }

/-- A store holding only `default/web`, last modified at instant 100. -/
def stWeb : Storage :=
  { deployments := [(storeKey (String.toList "default") (String.toList "web"),
      depWeb)],
    services := [], ingresses := [], pods := [], lastModified := 100,
    disk := none }

/-- An incoming snapshot older than `stWeb`. -/
def incOld : ClusterState :=
  { deployments := [], services := [], ingresses := [], pods := [],
    lastModified := 90, version := 1 }

/-- An incoming snapshot newer than `stWeb`, carrying `default/api`. -/
def incNew : ClusterState :=
  { deployments := [(storeKey (String.toList "default")
      (String.toList "api"), depApi)],
    services := [], ingresses := [], pods := [], lastModified := 150,
    version := 1 }

/-- Claim C4 theorem applied concretely: an older incoming snapshot
leaves the store untouched, and a newer one stamps `last_modified` with
the merge time. -/
theorem claim_C4_witness :
    mergeState 120 stWeb incOld = stWeb
    ∧ (mergeState 200 stWeb incNew).lastModified = 200 :=
  ⟨(claim_C4_theorem stWeb incOld 120 (by decide) (by decide) (by decide)
      (by decide)).2 (by decide),
   ((claim_C4_theorem stWeb incNew 200 (by decide) (by decide) (by decide)
      (by decide)).1 (by decide)).1⟩

/-- Claim C10 theorem applied concretely: the locally known
`default/web`, absent from the newer incoming snapshot, survives the
merge. -/
theorem claim_C10_witness :
    (lookupKV (mergeState 200 stWeb incNew).deployments
      (storeKey (String.toList "default") (String.toList "web"))).isSome
      = true :=
  (claim_C10_theorem stWeb incNew 200
    (storeKey (String.toList "default") (String.toList "web"))).1 (by decide)

/-! ### Join tokens (internal/security `TokenManager`, `ValidateToken`) -/

/-- `security.Token`: stored token text, its keyed hash (hex text), and
creation/expiry instants. -/
structure JoinToken where
  value : GoStr
  hash : GoStr
  createdAt : Nat
  expiresAt : Option Nat
  deriving Repr, DecidableEq

/-- `security.TokenManager`: token map keyed by token text, plus the
cluster shared secret (bytes). -/
structure TokenManager where
  tokens : List (GoStr × JoinToken)
  secret : List Nat
  deriving Repr, DecidableEq

instance : Inhabited JoinToken :=
  ⟨{ value := [], hash := [], createdAt := 0, expiresAt := none }⟩

/-- URL-safe base64 alphabet index of a character
(`base64.URLEncoding`). -/
def b64Index (c : Char) : Option Nat :=
  if 'A' ≤ c ∧ c ≤ 'Z' then some (c.toNat - 65)
  else if 'a' ≤ c ∧ c ≤ 'z' then some (c.toNat - 97 + 26)
  else if '0' ≤ c ∧ c ≤ '9' then some (c.toNat - 48 + 52)
  else if c = '-' then some 62
  else if c = '_' then some 63
  else none

/-- `base64.URLEncoding.DecodeString`: four-character quanta, padding
(`=`) only in the final quantum, any character outside the alphabet is
an error; trailing padding bits are ignored (the non-strict decoder). -/
def b64DecodeQuanta : List Char → Option (List Nat)
  | [] => some []
  | a :: b :: c :: d :: rest =>
    match b64Index a, b64Index b with
    | some ia, some ib =>
      if c = '=' then
        if d = '=' ∧ rest = [] then some [ia * 4 + ib / 16]
        else none
      else
        match b64Index c with
        | some ic =>
          if d = '=' then
            if rest = [] then
              some [ia * 4 + ib / 16, (ib % 16) * 16 + ic / 4]
            else none
          else
            match b64Index d with
            | some idx =>
              match b64DecodeQuanta rest with
              | some bs =>
                some ([ia * 4 + ib / 16, (ib % 16) * 16 + ic / 4,
                  (ic % 4) * 64 + idx] ++ bs)
              | none => none
            | none => none
        | none => none
    | _, _ => none
  | _ => none

/-- Decoding a token's text to its bytes. -/
def base64URLDecode (s : GoStr) : Option (List Nat) := b64DecodeQuanta s

/-- `TokenManager.ValidateToken`. The SHA-256-then-hex computation
(`sha256.Sum256` + `hex.EncodeToString`) is an external library
function and enters as the `hashHex` parameter. Returns the decision
together with the possibly updated manager, because a stored token
found expired is deleted. -/
def validateToken (hashHex : List Nat → GoStr) (now : Nat)
    (tm : TokenManager) (token : GoStr) : Bool × TokenManager :=
  match lookupKV tm.tokens token with
  | none =>
    match base64URLDecode token with
    | none => (false, tm)
    | some tokenBytes =>
      let hashStr := hashHex (tm.secret ++ tokenBytes)
      if tm.tokens.any (fun p => p.2.hash = hashStr) then (true, tm)
      else if tm.tokens.isEmpty then (true, tm)
      else (false, tm)
  | some t =>
    match t.expiresAt with
    | some expiry =>
      if expiry < now then
        (false, { tm with tokens := eraseKV tm.tokens token })
      else (true, tm)
    | none => (true, tm)

/-- Claim C7 is refuted on this input: a manager that knows no tokens
rejects the presented token `!`, because `ValidateToken` base64-decodes
the token before it ever reaches the bootstrap check, and `!` is not
valid URL-safe base64 — so "any presented token is accepted
unconditionally" fails. -/
theorem claim_C7_counterexample :
    ({ tokens := [], secret := [] } : TokenManager).tokens = []
    ∧ (validateToken (fun _ => []) 0 { tokens := [], secret := [] }
        (String.toList "!")).1 = false := by
  constructor
  · rfl
  · decide

/-- Claim C7 (amended): a joiner is accepted iff the token is present
in the local token set and not expired, or the token is absent, its
text decodes as URL-safe base64, and either its decoded bytes combined
with the shared secret reproduce a stored hash or no tokens are yet
known. In particular, when no tokens are known a token is accepted iff
it is valid URL-safe base64 — not unconditionally. -/
theorem claim_C7_amended (hashHex : List Nat → GoStr) (now : Nat)
    (tm : TokenManager) (token : GoStr) :
    (validateToken hashHex now tm token).1 = true ↔
      ((∃ t, lookupKV tm.tokens token = some t
          ∧ ∀ expiry, t.expiresAt = some expiry → ¬ expiry < now)
        ∨ (lookupKV tm.tokens token = none
            ∧ ∃ bs, base64URLDecode token = some bs
              ∧ ((∃ p ∈ tm.tokens, p.2.hash = hashHex (tm.secret ++ bs))
                  ∨ tm.tokens = []))) := by
  cases hlk : lookupKV tm.tokens token with
  | none =>
    cases hdec : base64URLDecode token with
    | none =>
      simp [validateToken, hlk, hdec]
    | some bs =>
      by_cases hany : tm.tokens.any
          (fun p => p.2.hash = hashHex (tm.secret ++ bs)) = true
      · simp only [validateToken, hlk, hdec, hany, if_pos]
        simp only [List.any_eq_true, decide_eq_true_eq] at hany
        simp
        obtain ⟨x, hx, hh⟩ := hany
        exact Or.inl ⟨x.1, x.2, hx, hh⟩
      · rw [Bool.not_eq_true] at hany
        by_cases hemp : tm.tokens.isEmpty = true
        · have hnil : tm.tokens = [] := by
            cases htk : tm.tokens with
            | nil => rfl
            | cons x xs => rw [htk] at hemp; simp [List.isEmpty] at hemp
          simp [validateToken, lookupKV, hlk, hdec, hany, hemp, hnil]
        · rw [Bool.not_eq_true] at hemp
          have hne : tm.tokens ≠ [] := by
            intro hnil
            rw [hnil] at hemp
            simp [List.isEmpty] at hemp
          simp only [validateToken, hlk, hdec, hany, hemp]
          simp only [Bool.false_eq_true, if_false]
          constructor
          · intro h; exact absurd h (by simp)
          · rintro (⟨t, ht, _⟩ | ⟨_, bs', hbs', hmatch | hnil⟩)
            · exact Option.noConfusion ht
            · injection hbs' with hb
              subst hb
              obtain ⟨p, hp, hph⟩ := hmatch
              have hcontra : tm.tokens.any
                  (fun q => q.2.hash = hashHex (tm.secret ++ bs)) = true := by
                simp only [List.any_eq_true, decide_eq_true_eq]
                exact ⟨p, hp, hph⟩
              rw [hany] at hcontra
              exact absurd hcontra (by simp)
            · exact absurd hnil hne
  | some t =>
    cases hexp : t.expiresAt with
    | none =>
      simp only [validateToken, hlk, hexp]
      constructor
      · intro _
        exact Or.inl ⟨t, rfl, fun expiry hcontra => by
          rw [hexp] at hcontra; exact absurd hcontra (by simp)⟩
      · intro _; trivial
    | some expiry =>
      by_cases hlt : expiry < now
      · simp only [validateToken, hlk, hexp, if_pos hlt]
        constructor
        · intro h; exact absurd h (by simp)
        · rintro (⟨t', ht', hnx⟩ | ⟨hnone, _⟩)
          · injection ht' with ht'
            subst ht'
            exact absurd hlt (hnx expiry hexp)
          · exact Option.noConfusion hnone
      · simp only [validateToken, hlk, hexp, if_neg hlt]
        constructor
        · intro _
          refine Or.inl ⟨t, rfl, fun expiry' hx => ?_⟩
          rw [hexp] at hx
          injection hx with hx
          subst hx
          exact hlt
        · intro _; trivial

/-! ### Registry mutation helpers (internal/discovery) -/

/-- `api.matchesSelector`: every selector key must appear in the labels
with the same value; a missing label reads as the empty string, as the
Go map zero value does. -/
def matchesSelector (labels selector : List (GoStr × GoStr)) : Bool :=
  selector.all (fun kv => ((lookupKV labels kv.1).getD []) = kv.2)

/-- `Discovery.DeregisterService`: remove the endpoint for this service
and pod when present, dropping the service key when its endpoint map
becomes empty (the broadcast side effect is outside the state). -/
def deregisterService (reg : Registry) (svc : Service) (pod : Pod) :
    Registry :=
  let key := serviceKey svc.name svc.namespaceName
  let eid := endpointID svc.namespaceName svc.name pod.id
  match lookupKV reg key with
  | none => reg
  | some endpoints =>
    match lookupKV endpoints eid with
    | none => reg
    | some _ =>
      let remaining := eraseKV endpoints eid
      if remaining.isEmpty then eraseKV reg key
      else upsert key remaining reg

/-! ### API layer (internal/api): delete and apply paths -/

/-- The in-process state the API handlers touch: the API's own
in-memory maps, the scheduler's pod map (keyed by pod id), the
registry, and the persistent store. `localNode` is the value of
`cluster.GetLocalNodeName()`. The runtime adapter's container
stop/remove calls and the ingress proxy's rule set are external
collaborators whose state is not represented here. -/
structure AgentState where
  apiDeployments : List (GoStr × Deployment)
  apiServices : List (GoStr × Service)
  apiIngresses : List (GoStr × Ingress)
  schedPods : List (GoStr × Pod)
  registry : Registry
  store : Storage
  localNode : GoStr
  deriving Repr, DecidableEq

/-- `API.DeleteManifest`: for a deployment under the key, stop/remove
local containers (external), drop each pod's scheduling record, and
delete the API map entry; for a service, deregister matching pods'
endpoints and delete the API map entry; for an ingress, remove the
proxy rules (external) and delete the API map entry. The persistent
store is never touched. -/
def deleteManifest (st : AgentState) (namespaceName name : GoStr) :
    AgentState :=
  let key := storeKey namespaceName name
  let st1 :=
    match lookupKV st.apiDeployments key with
    | some dep =>
      { st with
        schedPods := dep.pods.foldl (fun m p => eraseKV m p.id) st.schedPods
        apiDeployments := eraseKV st.apiDeployments key }
    | none => st
  let st2 :=
    match lookupKV st1.apiServices key with
    | some svc =>
      { st1 with
        registry := (st1.schedPods.map Prod.snd).foldl
          (fun r p =>
            if matchesSelector p.labels svc.selector then
              deregisterService r svc p
            else r) st1.registry
        apiServices := eraseKV st1.apiServices key }
    | none => st1
  match lookupKV st2.apiIngresses key with
  | some _ => { st2 with apiIngresses := eraseKV st2.apiIngresses key }
  | none => st2

/-- The external collaborators `applyDeployment` drives, as oracles:
the scheduler's node choice, the runtime adapter's create/start/status
calls, the local node name, and the parser's pod synthesis (template
extraction plus the generated id and `CreatedAt` stamp) per replica
index. -/
structure ApplyEnv where
  schedule : Pod → Except GoStr GoStr
  createPod : Pod → Except GoStr GoStr
  startPod : GoStr → Except GoStr Unit
  podStatus : GoStr → PodState
  localNode : GoStr
  mkPod : Nat → Pod

/-- One iteration of the replica loop of `API.applyDeployment`, for
replica index `i`: synthesize the pod, schedule it (setting its
`NodeName`); when the target is the local node, create and start the
container, the pod's id becoming the container id (the status probe
updates the scheduler's record, not the appended pod). A scheduling,
create, or start failure yields that error. -/
def applyStep (env : ApplyEnv) (i : Nat) : Except GoStr Pod :=
  let pod := env.mkPod i
  match env.schedule pod with
  | .error e => .error (String.toList "failed to schedule pod: " ++ e)
  | .ok nodeName =>
    let pod := { pod with nodeName := nodeName }
    if nodeName = env.localNode then
      match env.createPod pod with
      | .error e => .error (String.toList "failed to create pod: " ++ e)
      | .ok containerID =>
        match env.startPod containerID with
        | .error e => .error (String.toList "failed to start pod: " ++ e)
        | .ok _ => .ok { pod with id := containerID }
    else .ok pod

/-- The replica loop of `API.applyDeployment`, recursing on the count
of replicas still to process (`i` is the current replica index): each
iteration either appends its pod or returns the error immediately,
keeping only the pods appended so far. -/
def applyGo (env : ApplyEnv) : Nat → Nat → List Pod →
    Except GoStr Unit × List Pod
  | 0, _, pods => (.ok (), pods)
  | remaining + 1, i, pods =>
    match applyStep env i with
    | .error e => (.error e, pods)
    | .ok pod => applyGo env remaining (i + 1) (pods ++ [pod])

/-- `API.applyDeployment`: run the replica loop for
`dep.DesiredReplicas` replicas (an `int32`; a non-positive count runs
zero iterations) and leave the resulting pod list on the deployment
record — also when the loop aborted with an error, since the record was
stored before the loop. -/
def applyDeployment (env : ApplyEnv) (dep : Deployment) :
    Except GoStr Unit × Deployment :=
  let r := applyGo env dep.desiredReplicas.toNat 0 []
  (r.1, { dep with pods := r.2 })

theorem applyGo_length (env : ApplyEnv) :
    ∀ (remaining i : Nat) (pods : List Pod),
      ((applyGo env remaining i pods).1 = .ok () →
        (applyGo env remaining i pods).2.length = pods.length + remaining)
      ∧ (∀ e, (applyGo env remaining i pods).1 = .error e →
        (applyGo env remaining i pods).2.length < pods.length + remaining) := by
  intro remaining
  induction remaining with
  | zero =>
    intro i pods
    refine ⟨fun _ => by simp [applyGo], fun e he => ?_⟩
    simp [applyGo] at he
  | succ r ih =>
    intro i pods
    cases hstep : applyStep env i with
    | error e =>
      have heq : applyGo env (r + 1) i pods = (.error e, pods) := by
        simp [applyGo, hstep]
      rw [heq]
      exact ⟨fun hok => absurd hok (by simp),
        fun e' _ => by show pods.length < pods.length + (r + 1); omega⟩
    | ok pod =>
      have heq : applyGo env (r + 1) i pods
          = applyGo env r (i + 1) (pods ++ [pod]) := by
        simp [applyGo, hstep]
      rw [heq]
      have h := ih (i + 1) (pods ++ [pod])
      refine ⟨fun hok => ?_, fun e' he' => ?_⟩
      · have hl := h.1 hok
        simp only [List.length_append, List.length_cons, List.length_nil] at hl
        omega
      · have hl := h.2 e' he'
        simp only [List.length_append, List.length_cons, List.length_nil] at hl
        omega

/-! Concrete states for the apply/delete claims. -/

/-- The pod the parser synthesizes for every replica in the apply
scenarios. -/
def podTemplate0 : Pod :=
  { id := [], name := String.toList "web-0",
    namespaceName := String.toList "default", nodeName := [],
    state := .pending, image := String.toList "nginx", labels := [],
    nodeSelector := [], createdAt := 0 }

/-- An environment whose runtime adapter fails every container
creation. -/
def envFail : ApplyEnv :=
  { schedule := fun _ => .ok (String.toList "n1")
    createPod := fun _ => .error (String.toList "boom")
    startPod := fun _ => .ok ()
    podStatus := fun _ => .pending
    localNode := String.toList "n1"
    mkPod := fun _ => podTemplate0 }

/-- The same environment with container creation succeeding. -/
def envOK : ApplyEnv :=
  { envFail with createPod := fun _ => .ok (String.toList "c1") }

/-- A deployment wanting two replicas. -/
def depTwo : Deployment := { depWeb with desiredReplicas := 2 }

/-- Claim C3 is refuted on this input: applying a two-replica
deployment in an environment where creating the first replica's
container fails makes `applyDeployment` return the error immediately —
the second replica is never processed and the pod list is left with 0
entries instead of 2. -/
theorem claim_C3_counterexample :
    depTwo.desiredReplicas = 2
    ∧ (applyDeployment envFail depTwo).1
        = .error (String.toList "failed to create pod: boom")
    ∧ (applyDeployment envFail depTwo).2.pods.length = 0 := by
  refine ⟨rfl, by decide, by decide⟩

/-- Claim C3 (amended): in `applyDeployment` a scheduling or runtime
failure while processing one replica aborts the apply — the error is
returned, the failing and remaining replicas are not appended, and the
pod list keeps strictly fewer than `replicas_desired` entries; only
when every replica succeeds does the pod list have exactly
`replicas_desired` entries. (The recovery path, unlike apply, records
failures and continues.) -/
theorem claim_C3_amended (env : ApplyEnv) (dep : Deployment) :
    ((applyDeployment env dep).1 = .ok () →
      (applyDeployment env dep).2.pods.length = dep.desiredReplicas.toNat)
    ∧ (∀ e, (applyDeployment env dep).1 = .error e →
      (applyDeployment env dep).2.pods.length < dep.desiredReplicas.toNat) := by
  have h := applyGo_length env dep.desiredReplicas.toNat 0 []
  have hd1 : (applyDeployment env dep).1
      = (applyGo env dep.desiredReplicas.toNat 0 []).1 := rfl
  have hd2 : (applyDeployment env dep).2.pods
      = (applyGo env dep.desiredReplicas.toNat 0 []).2 := rfl
  constructor
  · intro hok
    rw [hd1] at hok
    have hl := h.1 hok
    rw [hd2, hl]
    simp
  · intro e he
    rw [hd1] at he
    have hl := h.2 e he
    rw [hd2]
    simpa using hl

/-- Claim C3 amended theorem applied concretely: with a working runtime
both replicas are created and the pod list has exactly two entries. -/
theorem claim_C3_witness :
    (applyDeployment envOK depTwo).2.pods.length
      = depTwo.desiredReplicas.toNat :=
  (claim_C3_amended envOK depTwo).1 (by decide)

/-- The service record `default/web` selecting `app=web` pods. -/
def svcWeb : Service :=
  { name := String.toList "web", namespaceName := String.toList "default",
    selector := [(String.toList "app", String.toList "web")], ports := [],
    clusterIP := [], labels := [] }

/-- The ingress record `default/web`. -/
def ingWeb : Ingress :=
  { name := String.toList "web", namespaceName := String.toList "default",
    rules := [], labels := [] }

/-- A store persistently holding the deployment, service and ingress
`default/web`. -/
def storeC2 : Storage :=
  { deployments := [(storeKey (String.toList "default")
      (String.toList "web"), depWeb)],
    services := [(storeKey (String.toList "default")
      (String.toList "web"), svcWeb)],
    ingresses := [(storeKey (String.toList "default")
      (String.toList "web"), ingWeb)],
    pods := [], lastModified := 100, disk := none }

/-- An agent whose API maps and store both hold `default/web`. -/
def agentC2 : AgentState :=
  { apiDeployments := [(storeKey (String.toList "default")
      (String.toList "web"), depWeb)],
    apiServices := [(storeKey (String.toList "default")
      (String.toList "web"), svcWeb)],
    apiIngresses := [(storeKey (String.toList "default")
      (String.toList "web"), ingWeb)],
    schedPods := [], registry := [], store := storeC2,
    localNode := String.toList "n1" }

/-- Claim C2: the code, evaluated at the failing input. `DeleteManifest`
removes `default/web` from the API's in-memory deployment, service and
ingress maps but never calls the store's delete operations: the store
is bit-for-bit unchanged, every store `get` still returns the record
(not NotFound), and the next persisted snapshot still carries the key. -/
theorem claim_C2_theorem :
    (deleteManifest agentC2 (String.toList "default")
        (String.toList "web")).apiDeployments = []
    ∧ (deleteManifest agentC2 (String.toList "default")
        (String.toList "web")).apiServices = []
    ∧ (deleteManifest agentC2 (String.toList "default")
        (String.toList "web")).apiIngresses = []
    ∧ (deleteManifest agentC2 (String.toList "default")
        (String.toList "web")).store = agentC2.store
    ∧ getDeployment (deleteManifest agentC2 (String.toList "default")
        (String.toList "web")).store (String.toList "default")
        (String.toList "web") = .ok depWeb
    ∧ getService (deleteManifest agentC2 (String.toList "default")
        (String.toList "web")).store (String.toList "default")
        (String.toList "web") = .ok svcWeb
    ∧ getIngress (deleteManifest agentC2 (String.toList "default")
        (String.toList "web")).store (String.toList "default")
        (String.toList "web") = .ok ingWeb
    ∧ lookupKV (getState (deleteManifest agentC2 (String.toList "default")
        (String.toList "web")).store).deployments
        (storeKey (String.toList "default") (String.toList "web"))
        = some depWeb := by
  refine ⟨by decide, by decide, by decide, by decide, by decide, by decide,
    by decide, by decide⟩

/-! ### Gossip receive path (internal/discovery `HandleServiceUpdate`,
internal/storage `HandleStateSyncMessage`, cmd/agent message handler)

`HandleServiceUpdate` unmarshals the payload into a
`map[string]interface{}` and then reads its fields with unchecked Go
type assertions (`update["action"].(string)`, ...), which panic when
the field is absent or of another dynamic type. The embedding makes
that observable: a handler run is either a normal result or a panic. -/

/-- A decoded JSON value (`interface{}` after `json.Unmarshal`); Go
decodes JSON numbers to `float64`, carried here as the numeric value. -/
inductive JVal where
  | jnull
  | jbool (b : Bool)
  | jnum (n : Int)
  | jstr (s : GoStr)
  | jarr (elems : List JVal)
  | jobj (fields : List (GoStr × JVal))

/-- Outcome of running a Go function that may panic. -/
inductive GoOutcome (α : Type) where
  | panicked
  | ok (val : α)
  deriving Repr

/-- Sequencing in panic-propagating code. -/
def GoOutcome.bind {α β : Type} : GoOutcome α → (α → GoOutcome β) → GoOutcome β
  | .panicked, _ => .panicked
  | .ok a, f => f a

/-- Go type assertion `v.(string)`: panics unless the dynamic type is
string (a missing map key asserts on a nil interface and panics too). -/
def assertString : Option JVal → GoOutcome GoStr
  | some (.jstr s) => .ok s
  | _ => .panicked

/-- Go type assertion `v.(float64)`. -/
def assertNum : Option JVal → GoOutcome Int
  | some (.jnum n) => .ok n
  | _ => .panicked

/-- Go type assertion `v.(bool)`. -/
def assertBool : Option JVal → GoOutcome Bool
  | some (.jbool b) => .ok b
  | _ => .panicked

/-- The Go interface comparison `update["type"] != "service_update"`
(negated): true iff the value is the string `service_update`. -/
def isServiceUpdateType (v : Option JVal) : Bool :=
  match v with
  | some (.jstr s) => s = String.toList "service_update"
  | _ => false

/-- The `register` branch of `HandleServiceUpdate`: create the inner
endpoint map when absent and insert the endpoint. -/
def registryApplyRegister (reg : Registry) (key eid : GoStr)
    (ep : ServiceEndpoint) : Registry :=
  match lookupKV reg key with
  | none => upsert key [(eid, ep)] reg
  | some endpoints => upsert key (upsert eid ep endpoints) reg

/-- The `deregister` branch of `HandleServiceUpdate`: delete the
endpoint when the service key exists, dropping the key when its map
becomes empty. -/
def registryApplyDeregister (reg : Registry) (key eid : GoStr) : Registry :=
  match lookupKV reg key with
  | none => reg
  | some endpoints =>
    let remaining := eraseKV endpoints eid
    if remaining.isEmpty then eraseKV reg key
    else upsert key remaining reg

/-- `Discovery.HandleServiceUpdate`, on the result of unmarshalling the
payload into `map[string]interface{}` (`.error` models an unmarshal
failure, returned to the caller as an error). Field reads happen in the
source's evaluation order; each is an unchecked type assertion. -/
def handleServiceUpdate (reg : Registry) (now : Nat)
    (decoded : Except GoStr (List (GoStr × JVal))) :
    GoOutcome (Except GoStr Unit × Registry) :=
  match decoded with
  | .error e => .ok (.error (String.toList "failed to unmarshal service update: " ++ e), reg)
  | .ok update =>
    if !isServiceUpdateType (lookupKV update (String.toList "type")) then
      .ok (.ok (), reg)
    else
      (assertString (lookupKV update (String.toList "action"))).bind fun action =>
      (assertString (lookupKV update (String.toList "serviceName"))).bind fun serviceName =>
      (assertString (lookupKV update (String.toList "namespace"))).bind fun namespaceName =>
      (assertString (lookupKV update (String.toList "podID"))).bind fun podID =>
      (assertString (lookupKV update (String.toList "podName"))).bind fun podName =>
      (assertString (lookupKV update (String.toList "nodeName"))).bind fun nodeName =>
      (assertString (lookupKV update (String.toList "address"))).bind fun address =>
      (assertNum (lookupKV update (String.toList "port"))).bind fun port =>
      (assertBool (lookupKV update (String.toList "healthy"))).bind fun healthy =>
      let key := serviceKey serviceName namespaceName
      let eid := endpointID namespaceName serviceName podID
      let endpoint : ServiceEndpoint :=
        { serviceName := serviceName, namespaceName := namespaceName,
          podID := podID, podName := podName, nodeName := nodeName,
          address := address, port := port, healthy := healthy,
          lastSeen := now }
      if action = String.toList "register" then
        .ok (.ok (), registryApplyRegister reg key eid endpoint)
      else if action = String.toList "deregister" then
        .ok (.ok (), registryApplyDeregister reg key eid)
      else .ok (.ok (), reg)

/-- `storage.StateSyncMessage`, as decoded from the payload. -/
structure StateSyncMessage where
  msgType : GoStr
  state : Option ClusterState
  timestamp : Nat
  nodeName : GoStr

/-- `Storage.HandleStateSyncMessage`, on the result of unmarshalling
the payload into a `StateSyncMessage` (`.error` models an unmarshal
failure): merge on `state_sync` with a state, log on `state_request`,
ignore anything else. -/
def handleStateSyncMessage (st : Storage) (now : Nat)
    (decoded : Except GoStr StateSyncMessage) :
    Except GoStr Unit × Storage :=
  match decoded with
  | .error e =>
    (.error (String.toList "failed to unmarshal state sync message: " ++ e), st)
  | .ok msg =>
    if msg.msgType = String.toList "state_sync" then
      match msg.state with
      | some inc => (.ok (), mergeState now st inc)
      | none => (.ok (), st)
    else (.ok (), st)

/-- The message handler `cmd/agent/main.go` registers on the cluster:
feed the payload to `HandleServiceUpdate`, then to
`HandleStateSyncMessage`, ignoring both return errors and returning
nil. The same payload bytes are decoded twice, into the two shapes the
two handlers expect; an unrecovered panic in the first call crashes the
handler before the second runs. -/
def clusterMessageHandler (reg : Registry) (st : Storage) (now : Nat)
    (decodedUpdate : Except GoStr (List (GoStr × JVal)))
    (decodedSync : Except GoStr StateSyncMessage) :
    GoOutcome (Registry × Storage) :=
  match handleServiceUpdate reg now decodedUpdate with
  | .panicked => .panicked
  | .ok (_, newReg) =>
    .ok (newReg, (handleStateSyncMessage st now decodedSync).2)

/-- Claim C9: the code, evaluated at the failing input. A payload that
does not decode, or whose type is unknown, is indeed silently ignored
with the registry and store unchanged — but a valid JSON payload
declaring type `service_update` while missing the `action` field (the
claim's required case) makes `HandleServiceUpdate` panic on the
unchecked type assertion, crashing the receive handler instead of being
ignored. -/
theorem claim_C9_theorem (reg : Registry) (st : Storage) (now : Nat)
    (e1 e2 : GoStr) :
    clusterMessageHandler reg st now (.error e1) (.error e2) = .ok (reg, st)
    ∧ clusterMessageHandler reg st now
        (.ok [(String.toList "type", .jstr (String.toList "mystery"))])
        (.ok { msgType := String.toList "mystery", state := none,
               timestamp := 0, nodeName := [] })
      = .ok (reg, st)
    ∧ clusterMessageHandler reg st now
        (.ok [(String.toList "type", .jstr (String.toList "service_update"))])
        (.ok { msgType := String.toList "service_update", state := none,
               timestamp := 0, nodeName := [] })
      = .panicked := by
  refine ⟨rfl, ?_, ?_⟩
  · rfl
  · rfl

end PodmanSwarm
